import Mathlib

/-!
# Swing-point detection and date projection: a shallow embedding

This file embeds the algorithmic core of `app.py` — the functions
`find_swing_dates` and `calculate_projected_dates` — and proves the
specified properties of the pivot scanner and the projection calculator.

Modelling choices:
* A price bar keeps only the fields the core reads: its timestamp and its
  `high`/`low` prices.  Timestamps are integers (a day count); prices are
  integers (the core only compares prices with strict `<`/`>`, so any
  linearly ordered exact type is faithful to those comparisons).
* A pandas `Series` slice `s.iloc[a : b]` (with `0 ≤ a ≤ b`) is
  `(drop a).take (b - a)`; `(c > s).all()` on a slice is `List.all`
  (vacuously true on the empty slice, exactly as in pandas).
* The DataFrame returned by `calculate_projected_dates` is a list of
  labelled columns, in the order the code inserts them: base date, base
  price, then one projected-date column per period.
* Python `datetime` dates are day numbers in the proleptic Gregorian
  calendar; `date + timedelta(days=k)` is `d + k` on day numbers.
-/

/-- One OHLC bar, restricted to the fields the scanner reads:
its timestamp (`date`, an integer day count) and its `high`/`low` prices. -/
structure Bar where
  date : Int
  high : Int
  low : Int
deriving DecidableEq

/-- Python slice `xs[a : b]` for `0 ≤ a ≤ b` (the only shapes the scanner uses). -/
def pySlice (xs : List Int) (a b : Nat) : List Int :=
  (xs.drop a).take (b - a)

/-- The `high` value of bar `i` (`high_series.iloc[i]`); bars are accessed
in-bounds by the scan loop, the default is never reached there. -/
def highAt (data : List Bar) (i : Nat) : Int :=
  (data.map Bar.high).getD i 0

/-- The `low` value of bar `i` (`low_series.iloc[i]`). -/
def lowAt (data : List Bar) (i : Nat) : Int :=
  (data.map Bar.low).getD i 0

/-- The timestamp of bar `i` (`dates[i]`). -/
def dateAt (data : List Bar) (i : Nat) : Int :=
  (data.map Bar.date).getD i 0

/-- The swing-high test of `find_swing_dates` at index `i`:
`(current_high > left_highs).all() and (current_high > right_highs).all()`
with `left_highs = high.iloc[i-pvtLenL : i]` and
`right_highs = high.iloc[i+1 : i+1+pvtLenR]`. -/
def isSwingHighIdx (data : List Bar) (pvtLenL pvtLenR i : Nat) : Bool :=
  let highs := data.map Bar.high
  let current_high := highs.getD i 0
  let left_highs := pySlice highs (i - pvtLenL) i
  let right_highs := pySlice highs (i + 1) (i + 1 + pvtLenR)
  left_highs.all (fun x => current_high > x) &&
    right_highs.all (fun x => current_high > x)

/-- The swing-low test of `find_swing_dates` at index `i`, symmetric to
`isSwingHighIdx` with `low` values and strict `<`. -/
def isSwingLowIdx (data : List Bar) (pvtLenL pvtLenR i : Nat) : Bool :=
  let lows := data.map Bar.low
  let current_low := lows.getD i 0
  let left_lows := pySlice lows (i - pvtLenL) i
  let right_lows := pySlice lows (i + 1) (i + 1 + pvtLenR)
  left_lows.all (fun x => current_low < x) &&
    right_lows.all (fun x => current_low < x)

/-- The index range of the scan loop: `range(pvtLenL, len(data) - pvtLenR)`. -/
def scanIdxs (data : List Bar) (pvtLenL pvtLenR : Nat) : List Nat :=
  List.range' pvtLenL (data.length - pvtLenR - pvtLenL)

/-- Indices appended to `swing_high_dates`/`swing_high_prices`, in scan order. -/
def swingHighIdxs (data : List Bar) (pvtLenL pvtLenR : Nat) : List Nat :=
  (scanIdxs data pvtLenL pvtLenR).filter (isSwingHighIdx data pvtLenL pvtLenR)

/-- Indices appended to `swing_low_dates`/`swing_low_prices`, in scan order. -/
def swingLowIdxs (data : List Bar) (pvtLenL pvtLenR : Nat) : List Nat :=
  (scanIdxs data pvtLenL pvtLenR).filter (isSwingLowIdx data pvtLenL pvtLenR)

/-- `find_swing_dates(data, pvtLenL, pvtLenR, shunt)` from `app.py`: returns
`(swing_high_dates, swing_high_prices, swing_low_dates, swing_low_prices)`.
The `shunt` parameter appears in the Python signature (default 1) and is
never read in the body; it is kept here to state that fact. -/
def find_swing_dates (data : List Bar) (pvtLenL pvtLenR : Nat) (shunt : Int) :
    List Int × List Int × List Int × List Int :=
  ((swingHighIdxs data pvtLenL pvtLenR).map (dateAt data),
   (swingHighIdxs data pvtLenL pvtLenR).map (highAt data),
   (swingLowIdxs data pvtLenL pvtLenR).map (dateAt data),
   (swingLowIdxs data pvtLenL pvtLenR).map (lowAt data))

/-- The fixed projection periods of `calculate_projected_dates`:
`periods = [30, 60, 90, 120, 180, 270, 360]`. -/
def periods : List Nat := [30, 60, 90, 120, 180, 270, 360]

/-- `calculate_projected_dates(dates, prices, type_label)` from `app.py`,
as the list of labelled DataFrame columns in insertion order: the base-date
column, the base-price column, then one column `f"{type_label} +{period}d"`
per period holding `[date + timedelta(days=period) for date in dates]`.
An empty `dates` list yields the empty DataFrame. -/
def calculate_projected_dates (dates prices : List Int) (type_label : String) :
    List (String × List Int) :=
  if dates.isEmpty then []
  else
    [(type_label ++ " Date", dates), (type_label ++ " Price", prices)] ++
      periods.map (fun period =>
        (type_label ++ " +" ++ toString period ++ "d",
         dates.map (fun date => date + (period : Int))))

/-- Row `j` of the projected-date part of the table: the seven offset dates
of the `j`-th pivot, in column (= offset) order. -/
def rowOffsets (table : List (String × List Int)) (j : Nat) : List Int :=
  (table.drop 2).map (fun col => col.2.getD j 0)

/-- Day number of a proleptic-Gregorian civil date `y-m-d` (days since
1970-01-01), the calendar Python's `datetime.date` implements; used only
at concrete dates, where it evaluates. -/
def daysFromCivil (y : Int) (m d : Nat) : Int :=
  let yAdj : Int := if m ≤ 2 then y - 1 else y
  let era : Int := (if 0 ≤ yAdj then yAdj else yAdj - 399) / 400
  let yoe : Int := yAdj - era * 400
  let mp : Int := if 2 < m then (m : Int) - 3 else (m : Int) + 9
  let doy : Int := (153 * mp + 2) / 5 + (d : Int) - 1
  let doe : Int := yoe * 365 + yoe / 4 - yoe / 100 + doy
  era * 146097 + doe - 719468

/-- A three-bar series whose middle bar has the strictly greatest high and
the strictly lowest low. -/
def demoBars : List Bar :=
  [⟨100, 5, 2⟩, ⟨101, 10, 0⟩, ⟨102, 5, 2⟩]

/-- A three-bar series with strictly increasing highs and lows. -/
def rampBars : List Bar :=
  [⟨100, 1, 1⟩, ⟨101, 5, 5⟩, ⟨102, 2, 2⟩]

-- Sanity examples (concrete evaluation of the embedding).
example : find_swing_dates demoBars 1 1 1 = ([101], [10], [101], [0]) := by decide
example : daysFromCivil 1970 1 1 = 0 := by decide
example : daysFromCivil 2024 1 1 = 19723 := by decide
example : daysFromCivil 2024 12 26 = 20083 := by decide

/-- Membership in the scan loop's index range. -/
lemma mem_scanIdxs {data : List Bar} {L R i : Nat} :
    i ∈ scanIdxs data L R ↔ L ≤ i ∧ i + R < data.length := by
  simp only [scanIdxs, List.mem_range'_1]
  omega

/-- A Python slice test `(… > s.iloc[a:b]).all()` quantifies over the
in-range indices of `[a, b)`. -/
lemma pySlice_all {xs : List Int} {p : Int → Bool} {a b : Nat} :
    (pySlice xs a b).all p = true ↔
      ∀ j, a ≤ j → j < b → j < xs.length → p (xs.getD j 0) = true := by
  unfold pySlice
  rw [List.all_eq_true]
  constructor
  · intro hall j ha hb hlen
    refine hall _ ?_
    rw [List.mem_iff_getElem]
    have hk : j - a < ((xs.drop a).take (b - a)).length := by
      rw [List.length_take, List.length_drop]; omega
    refine ⟨j - a, hk, ?_⟩
    rw [List.getElem_take, List.getElem_drop, List.getD_eq_getElem xs 0 hlen]
    congr 1
    omega
  · intro h x hx
    rw [List.mem_iff_getElem] at hx
    obtain ⟨k, hk, hxk⟩ := hx
    have hk' : k < b - a ∧ k < xs.length - a := by
      rw [List.length_take, List.length_drop] at hk; omega
    have hlen : a + k < xs.length := by omega
    have hx' : x = xs.getD (a + k) 0 := by
      rw [List.getD_eq_getElem xs 0 hlen, ← hxk, List.getElem_take, List.getElem_drop]
    rw [hx']
    exact h (a + k) (Nat.le_add_right a k) (by omega) hlen

/-- C1: for positive window lengths and an interior index with full windows
on both sides, the scanner classifies bar `i` as a swing high iff its high
strictly exceeds every high in the symmetric window (ties disqualify), and
as a swing low iff its low is strictly below every low in that window. -/
theorem swing_classification (data : List Bar) (L R i : Nat)
    (hL : 1 ≤ L) (hR : 1 ≤ R) (hiL : L ≤ i) (hiR : i + R < data.length) :
    (i ∈ swingHighIdxs data L R ↔
      ∀ j, i - L ≤ j → j ≤ i + R → j ≠ i → highAt data j < highAt data i) ∧
    (i ∈ swingLowIdxs data L R ↔
      ∀ j, i - L ≤ j → j ≤ i + R → j ≠ i → lowAt data i < lowAt data j) := by
  have hmem : i ∈ scanIdxs data L R := mem_scanIdxs.mpr ⟨hiL, hiR⟩
  have hlen : (data.map Bar.high).length = data.length := List.length_map data Bar.high
  have hlen' : (data.map Bar.low).length = data.length := List.length_map data Bar.low
  constructor
  · rw [swingHighIdxs, List.mem_filter]
    simp only [hmem, true_and, isSwingHighIdx, Bool.and_eq_true, pySlice_all,
      decide_eq_true_eq, hlen, highAt]
    constructor
    · intro ⟨hl, hr⟩ j h1 h2 h3
      rcases Nat.lt_or_ge j i with hj | hj
      · exact hl j h1 hj (by omega)
      · exact hr j (by omega) (by omega) (by omega)
    · intro h
      constructor
      · intro j h1 h2 _; exact h j h1 (by omega) (by omega)
      · intro j h1 h2 _; exact h j (by omega) (by omega) (by omega)
  · rw [swingLowIdxs, List.mem_filter]
    simp only [hmem, true_and, isSwingLowIdx, Bool.and_eq_true, pySlice_all,
      decide_eq_true_eq, hlen', lowAt]
    constructor
    · intro ⟨hl, hr⟩ j h1 h2 h3
      rcases Nat.lt_or_ge j i with hj | hj
      · exact hl j h1 hj (by omega)
      · exact hr j (by omega) (by omega) (by omega)
    · intro h
      constructor
      · intro j h1 h2 _; exact h j h1 (by omega) (by omega)
      · intro j h1 h2 _; exact h j (by omega) (by omega) (by omega)

/-- Witness for C1: on `demoBars` with `leftLen = rightLen = 1`, the middle
bar is classified both as a swing high and as a swing low, obtained through
the classification equivalence. -/
theorem swing_classification_witness :
    1 ∈ swingHighIdxs demoBars 1 1 ∧ 1 ∈ swingLowIdxs demoBars 1 1 := by
  have h := swing_classification demoBars 1 1 1 (by decide) (by decide) (by decide) (by decide)
  refine ⟨h.1.mpr ?_, h.2.mpr ?_⟩ <;>
  · intro j h1 h2 h3
    interval_cases j
    · decide
    · omega
    · decide

/-- C10: the scanner's output is independent of the `shunt` parameter — two
calls to `find_swing_dates` that differ only in `shunt` return identical
results, because the parameter is never read in the body. -/
theorem find_swing_dates_shunt_independent (data : List Bar) (pvtLenL pvtLenR : Nat)
    (s1 s2 : Int) :
    find_swing_dates data pvtLenL pvtLenR s1 = find_swing_dates data pvtLenL pvtLenR s2 := rfl

/-- C5: whenever `len(bars) ≤ pvtLenL + pvtLenR` (boundary included), the
scanner returns four empty lists as a valid result, not an error. -/
theorem find_swing_dates_short_series_empty (data : List Bar) (pvtLenL pvtLenR : Nat)
    (shunt : Int) (h : data.length ≤ pvtLenL + pvtLenR) :
    find_swing_dates data pvtLenL pvtLenR shunt = ([], [], [], []) := by
  have h0 : data.length - pvtLenR - pvtLenL = 0 := by omega
  simp [find_swing_dates, swingHighIdxs, swingLowIdxs, scanIdxs, h0]

/-- Witness for C5 at the exact boundary: a 3-bar series with
`pvtLenL + pvtLenR = 3` yields four empty lists. -/
theorem find_swing_dates_short_series_empty_witness :
    demoBars.length ≤ 2 + 1 ∧ find_swing_dates demoBars 2 1 7 = ([], [], [], []) :=
  ⟨by decide, find_swing_dates_short_series_empty demoBars 2 1 7 (by decide)⟩

/-- C3: with `pvtLenL = 0` the scanner does not fail fast; it returns a
normal result, computed with a vacuously satisfied empty left window (here
it even emits a swing high at index 1 and a swing low at index 0 on a
strictly ramping series). -/
theorem find_swing_dates_zero_left_window_returns_normally :
    find_swing_dates rampBars 0 1 1 = ([101], [5], [100], [1]) := by decide

/-- C6: for positive window lengths, every emitted pivot index has a full
left window (`leftLen ≤ i`) and a full right window (`i + rightLen <
len(bars)`); edge bars are never emitted. -/
theorem pivot_window_bounds (data : List Bar) (L R : Nat) (hL : 1 ≤ L) (hR : 1 ≤ R)
    (i : Nat) (h : i ∈ swingHighIdxs data L R ∨ i ∈ swingLowIdxs data L R) :
    L ≤ i ∧ i + R < data.length := by
  rcases h with h | h
  · rw [swingHighIdxs, List.mem_filter] at h
    exact mem_scanIdxs.mp h.1
  · rw [swingLowIdxs, List.mem_filter] at h
    exact mem_scanIdxs.mp h.1

/-- Witness for C6: the middle bar of `demoBars` is an emitted pivot and
its index satisfies the window bounds. -/
theorem pivot_window_bounds_witness :
    1 ≤ 1 ∧ 1 + 1 < demoBars.length :=
  pivot_window_bounds demoBars 1 1 (by decide) (by decide) 1 (Or.inl (by decide))

/-- C9: a bar classified both as a swing high and as a swing low is emitted
in both output lists of `find_swing_dates`; the two checks are independent
and one never suppresses the other. -/
theorem both_kinds_emitted (data : List Bar) (L R : Nat) (shunt : Int) (i : Nat)
    (h1 : i ∈ swingHighIdxs data L R) (h2 : i ∈ swingLowIdxs data L R) :
    dateAt data i ∈ (find_swing_dates data L R shunt).1 ∧
    dateAt data i ∈ (find_swing_dates data L R shunt).2.2.1 :=
  ⟨List.mem_map_of_mem (dateAt data) h1, List.mem_map_of_mem (dateAt data) h2⟩

/-- Witness for C9: the middle bar of `demoBars` (highest high and lowest
low) is emitted both as a swing high and as a swing low. -/
theorem both_kinds_emitted_witness :
    dateAt demoBars 1 ∈ (find_swing_dates demoBars 1 1 0).1 ∧
    dateAt demoBars 1 ∈ (find_swing_dates demoBars 1 1 0).2.2.1 :=
  both_kinds_emitted demoBars 1 1 0 1 (by decide) (by decide)

/-- Row `j` of the projected-date columns holds the base date plus each
period, in the order of `periods`. -/
lemma rowOffsets_calculate (dates prices : List Int) (lbl : String) (j : Nat)
    (hj : j < dates.length) :
    rowOffsets (calculate_projected_dates dates prices lbl) j =
      periods.map (fun p => dates.getD j 0 + (p : Int)) := by
  have hne : dates.isEmpty = false := by
    cases dates
    · simp at hj
    · rfl
  rw [calculate_projected_dates, hne]
  simp only [Bool.false_eq_true, if_false, rowOffsets, List.cons_append, List.nil_append,
    List.drop_succ_cons, List.drop_zero, List.map_map]
  refine List.map_congr_left ?_
  intro p _
  simp only [Function.comp_apply]
  rw [List.getD_eq_getElem _ 0 (by simpa using hj), List.getElem_map,
    List.getD_eq_getElem dates 0 hj]

/-- C2: row `j` of the projection table holds exactly the seven offset
dates `D + 30, D + 60, D + 90, D + 120, D + 180, D + 270, D + 360` (where
`D` is the `j`-th pivot date), all present and in ascending offset order. -/
theorem projection_row_correct (dates prices : List Int) (lbl : String) (j : Nat)
    (hj : j < dates.length) :
    rowOffsets (calculate_projected_dates dates prices lbl) j =
      [dates.getD j 0 + 30, dates.getD j 0 + 60, dates.getD j 0 + 90,
       dates.getD j 0 + 120, dates.getD j 0 + 180, dates.getD j 0 + 270,
       dates.getD j 0 + 360] := by
  rw [rowOffsets_calculate dates prices lbl j hj]
  rfl

/-- Witness for C2 at a concrete pivot date. -/
theorem projection_row_correct_witness :
    rowOffsets (calculate_projected_dates [19723] [550] "Swing High") 0 =
      [19753, 19783, 19813, 19843, 19903, 19993, 20083] := by
  have h := projection_row_correct [19723] [550] "Swing High" 0 (by decide)
  simpa using h

/-- C7: every offset date in a projection row is strictly later than the
row's source pivot date. -/
theorem projection_dates_after_source (dates prices : List Int) (lbl : String) (j : Nat)
    (hj : j < dates.length) :
    ∀ x ∈ rowOffsets (calculate_projected_dates dates prices lbl) j,
      dates.getD j 0 < x := by
  rw [rowOffsets_calculate dates prices lbl j hj]
  intro x hx
  rw [List.mem_map] at hx
  obtain ⟨p, hp, rfl⟩ := hx
  unfold periods at hp
  fin_cases hp <;> omega

/-- Witness for C7 at a concrete pivot date and offset. -/
theorem projection_dates_after_source_witness :
    ([19723] : List Int).getD 0 0 < 19753 :=
  projection_dates_after_source [19723] [550] "Swing High" 0 (by decide) 19753 (by decide)

/-- Every emitted swing-high index is in bounds of the bar series. -/
lemma swingHighIdxs_lt_length {data : List Bar} {L R : Nat} :
    ∀ i ∈ swingHighIdxs data L R, i < data.length := by
  intro i hi
  rw [swingHighIdxs, List.mem_filter] at hi
  have := mem_scanIdxs.mp hi.1
  omega

/-- Every emitted swing-low index is in bounds of the bar series. -/
lemma swingLowIdxs_lt_length {data : List Bar} {L R : Nat} :
    ∀ i ∈ swingLowIdxs data L R, i < data.length := by
  intro i hi
  rw [swingLowIdxs, List.mem_filter] at hi
  have := mem_scanIdxs.mp hi.1
  omega

/-- The scan visits indices in increasing order, so the kept swing-high
indices are strictly increasing. -/
lemma swingHighIdxs_pairwise (data : List Bar) (L R : Nat) :
    (swingHighIdxs data L R).Pairwise (· < ·) :=
  (List.pairwise_lt_range' L (data.length - R - L)).filter (isSwingHighIdx data L R)

/-- The kept swing-low indices are strictly increasing. -/
lemma swingLowIdxs_pairwise (data : List Bar) (L R : Nat) :
    (swingLowIdxs data L R).Pairwise (· < ·) :=
  (List.pairwise_lt_range' L (data.length - R - L)).filter (isSwingLowIdx data L R)

/-- Mapping a strictly increasing in-bounds index list through the
timestamps of a strictly-ascending bar series keeps it strictly increasing. -/
lemma map_dateAt_pairwise {data : List Bar} {is : List Nat}
    (hsorted : (data.map Bar.date).Pairwise (· < ·))
    (hsub : ∀ x ∈ is, x < data.length)
    (hp : is.Pairwise (· < ·)) :
    (is.map (dateAt data)).Pairwise (· < ·) := by
  rw [List.pairwise_map]
  refine hp.imp_of_mem ?_
  intro a b ha hb hab
  have ha' : a < data.length := hsub a ha
  have hb' : b < data.length := hsub b hb
  have hlen : (data.map Bar.date).length = data.length := List.length_map data Bar.date
  have h := List.pairwise_iff_get.mp hsorted ⟨a, by omega⟩ ⟨b, by omega⟩ (by simpa using hab)
  rw [dateAt, dateAt, List.getD_eq_getElem _ 0 (by omega), List.getD_eq_getElem _ 0 (by omega)]
  simpa [List.get_eq_getElem] using h

/-- C8: the projection calculator emits one row per pivot in input order
(the base-date column is the input pivot-date list and every offset column
has one entry per pivot), and on a series with strictly ascending
timestamps both output lists of the scanner are strictly ascending. -/
theorem order_preservation :
    (∀ (dates prices : List Int) (lbl : String), dates ≠ [] →
      (calculate_projected_dates dates prices lbl).head? = some (lbl ++ " Date", dates) ∧
      ∀ col ∈ (calculate_projected_dates dates prices lbl).drop 2,
        col.2.length = dates.length) ∧
    (∀ (data : List Bar) (L R : Nat) (shunt : Int),
      (data.map Bar.date).Pairwise (· < ·) →
      (find_swing_dates data L R shunt).1.Pairwise (· < ·) ∧
      (find_swing_dates data L R shunt).2.2.1.Pairwise (· < ·)) := by
  constructor
  · intro dates prices lbl hne
    have h0 : dates.isEmpty = false := by
      cases dates
      · exact absurd rfl hne
      · rfl
    rw [calculate_projected_dates, h0]
    simp only [Bool.false_eq_true, if_false, List.cons_append, List.nil_append]
    refine ⟨rfl, ?_⟩
    simp only [List.drop_succ_cons, List.drop_zero]
    intro col hcol
    rw [List.mem_map] at hcol
    obtain ⟨p, hp, rfl⟩ := hcol
    exact List.length_map dates _
  · intro data L R s hsorted
    simp only [find_swing_dates]
    exact ⟨map_dateAt_pairwise hsorted swingHighIdxs_lt_length (swingHighIdxs_pairwise data L R),
      map_dateAt_pairwise hsorted swingLowIdxs_lt_length (swingLowIdxs_pairwise data L R)⟩

/-- Witness for C8: a one-pivot projection table headed by its base-date
column, and an ascending swing-high output on `demoBars`. -/
theorem order_preservation_witness :
    (calculate_projected_dates [5] [7] "Swing High").head? =
      some ("Swing High" ++ " Date", [5]) ∧
    (find_swing_dates demoBars 1 1 0).1.Pairwise (· < ·) :=
  ⟨(order_preservation.1 [5] [7] "Swing High" (by decide)).1,
   (order_preservation.2 demoBars 1 1 0 (by decide)).1⟩

/-- C4 counterexample: for a single pivot dated 2024-01-01, the emitted
offset-date row does NOT equal the claimed seven dates ending in
2024-12-27 (the +360 column actually holds 2024-12-26). -/
theorem projection_2024_claimed_dates_false :
    rowOffsets (calculate_projected_dates [daysFromCivil 2024 1 1] [100] "Swing High") 0 ≠
      [daysFromCivil 2024 1 31, daysFromCivil 2024 3 1, daysFromCivil 2024 3 31,
       daysFromCivil 2024 4 30, daysFromCivil 2024 6 29, daysFromCivil 2024 9 27,
       daysFromCivil 2024 12 27] := by decide

/-- C4 amended: a single pivot dated 2024-01-01 produces exactly the offset
dates 2024-01-31, 2024-03-01, 2024-03-31, 2024-04-30, 2024-06-29,
2024-09-27 and 2024-12-26 for offsets 30, 60, 90, 120, 180, 270, 360. -/
theorem projection_2024_actual_dates :
    rowOffsets (calculate_projected_dates [daysFromCivil 2024 1 1] [100] "Swing High") 0 =
      [daysFromCivil 2024 1 31, daysFromCivil 2024 3 1, daysFromCivil 2024 3 31,
       daysFromCivil 2024 4 30, daysFromCivil 2024 6 29, daysFromCivil 2024 9 27,
       daysFromCivil 2024 12 26] := by decide
